import Mathlib

/-!
Verification of the displacement-dashboard aggregation core.

The Lean definitions below are a shallow embedding of the Python source:

* `src/utils/data_processing.py` — `load_and_process_data`, `calculate_kpis`,
  `prepare_sankey_data`, `get_monthly_trends`, `get_regional_summary`,
  `get_pathway_progress`;
* `src/components/filters.py` — `apply_filters`.

A pandas `DataFrame` of beneficiary rows is embedded as a `List Record`;
column selections become field accessors.  pandas `NaN` results (float
division `0/0`, `mean` of an empty series) are embedded as `Option ℚ`
with `none` playing the role of `NaN`.
-/

namespace Dashboard

/-- Calendar date, ordered lexicographically (year, month, day). -/
structure Date where
  y : ℕ
  m : ℕ
  d : ℕ
deriving DecidableEq, Repr

/-- Date comparison used by the date-range filter (`.dt.date >= / <=`). -/
def Date.le (a b : Date) : Bool :=
  decide (a.y < b.y) ||
    (decide (a.y = b.y) &&
      (decide (a.m < b.m) || (decide (a.m = b.m) && decide (a.d ≤ b.d))))

/-- One beneficiary row of the source table (schema of §3 of the spec /
the columns the Python code reads).  Categorical fields are open strings:
the code never validates them against the enumerations. -/
structure Record where
  beneficiary_id : String
  region : String
  district : String
  displacement_status : String
  solutions_pathway : String
  pathway_stage : String
  household_size : ℤ
  gender_hoh : String
  shelter_status : String
  documentation_status : String
  livelihood_support : String
  registration_date : Date
deriving DecidableEq, Repr

/-- Derived column `is_female_hoh` (`load_and_process_data`, line 38). -/
def Record.is_female_hoh (r : Record) : Bool := decide (r.gender_hoh = "Female")

/-- Derived column `has_livelihood_support` (line 39). -/
def Record.has_livelihood_support (r : Record) : Bool :=
  decide (r.livelihood_support = "Yes")

/-- Derived column `is_achieved` (line 40). -/
def Record.is_achieved (r : Record) : Bool := decide (r.pathway_stage = "Achieved")

/-- Derived column `has_documentation` (line 41). -/
def Record.has_documentation (r : Record) : Bool :=
  decide (r.documentation_status = "Complete")

/-- Derived column `registration_month` (`to_period('M')`): the calendar
month bucket of a date, encoded so that the pandas `Period` ascending
order is the numeric order. -/
def monthIdx (dte : Date) : ℕ := dte.y * 12 + dte.m

/-- `pandas.Series.unique()`: distinct values in first-seen order
(auxiliary accumulator of already-seen values). -/
def uniqueAux [DecidableEq α] : List α → List α → List α
  | [], _ => []
  | a :: l, seen => if a ∈ seen then uniqueAux l seen else a :: uniqueAux l (a :: seen)

/-- `pandas.Series.unique()`: distinct values in first-seen order. -/
def uniqueFirst [DecidableEq α] (l : List α) : List α := uniqueAux l []

theorem mem_uniqueAux [DecidableEq α] (l : List α) :
    ∀ seen x, x ∈ uniqueAux l seen ↔ x ∈ l ∧ x ∉ seen := by
  induction l with
  | nil => intro seen x; simp [uniqueAux]
  | cons a l ih =>
    intro seen x
    by_cases ha : a ∈ seen
    · simp only [uniqueAux, if_pos ha, ih, List.mem_cons]
      constructor
      · rintro ⟨hx, hns⟩; exact ⟨Or.inr hx, hns⟩
      · rintro ⟨hx | hx, hns⟩
        · exact absurd (hx ▸ ha) hns
        · exact ⟨hx, hns⟩
    · simp only [uniqueAux, List.mem_cons, if_neg ha, ih]
      constructor
      · rintro (rfl | ⟨hx, hns⟩)
        · exact ⟨Or.inl rfl, ha⟩
        · refine ⟨Or.inr hx, fun hs => hns (Or.inr hs)⟩
      · rintro ⟨rfl | hx, hns⟩
        · exact Or.inl rfl
        · by_cases hxa : x = a
          · exact Or.inl hxa
          · refine Or.inr ⟨hx, ?_⟩
            rintro (h | h)
            · exact hxa h
            · exact hns h

theorem mem_uniqueFirst [DecidableEq α] (l : List α) (x : α) :
    x ∈ uniqueFirst l ↔ x ∈ l := by
  simp [uniqueFirst, mem_uniqueAux]

theorem nodup_uniqueAux [DecidableEq α] (l : List α) :
    ∀ seen, (uniqueAux l seen).Nodup := by
  induction l with
  | nil => intro seen; simp [uniqueAux]
  | cons a l ih =>
    intro seen
    by_cases ha : a ∈ seen
    · simpa [uniqueAux, if_pos ha] using ih seen
    · simp only [uniqueAux, if_neg ha, List.nodup_cons]
      refine ⟨fun hmem => ?_, ih _⟩
      exact ((mem_uniqueAux l _ a).mp hmem).2 (List.mem_cons_self a seen)

theorem nodup_uniqueFirst [DecidableEq α] (l : List α) : (uniqueFirst l).Nodup :=
  nodup_uniqueAux l []

/-- The KPI dictionary returned by `calculate_kpis` (one field per key,
in the order the Python code inserts them).  `avg_household_size` is the
pandas `mean`, which is `NaN` (`none`) on an empty series. -/
structure Kpis where
  total_beneficiaries : ℕ
  total_individuals : ℤ
  solutions_achieved : ℕ
  achievement_rate : ℚ
  female_hoh_count : ℕ
  female_hoh_percentage : ℚ
  livelihood_support_count : ℕ
  livelihood_support_percentage : ℚ
  complete_documentation : ℕ
  documentation_rate : ℚ
  emergency_shelter : ℕ
  transitional_shelter : ℕ
  permanent_shelter : ℕ
  idp_count : ℕ
  returnee_count : ℕ
  host_community_count : ℕ
  return_pathway : ℕ
  local_integration_pathway : ℕ
  relocation_pathway : ℕ
  assessment_stage : ℕ
  planning_stage : ℕ
  implementation_stage : ℕ
  achieved_stage : ℕ
  avg_household_size : Option ℚ
  regions_covered : ℕ
  districts_covered : ℕ
deriving DecidableEq, Repr

/-- `len(df[df[col] == v])`. -/
def countEq (df : List Record) (f : Record → String) (v : String) : ℕ :=
  df.countP fun r => decide (f r = v)

/-- `count / total if total > 0 else 0`. -/
def safeRate (count total : ℕ) : ℚ :=
  if 0 < total then (count : ℚ) / (total : ℚ) else 0

/-- `calculate_kpis` (`src/utils/data_processing.py`, lines 46–109). -/
def calculate_kpis (df : List Record) : Kpis :=
  let total := df.length
  { total_beneficiaries := total
    total_individuals := (df.map fun r => r.household_size).sum
    solutions_achieved := countEq df Record.pathway_stage "Achieved"
    achievement_rate := safeRate (countEq df Record.pathway_stage "Achieved") total
    female_hoh_count := countEq df Record.gender_hoh "Female"
    female_hoh_percentage := safeRate (countEq df Record.gender_hoh "Female") total
    livelihood_support_count := countEq df Record.livelihood_support "Yes"
    livelihood_support_percentage :=
      safeRate (countEq df Record.livelihood_support "Yes") total
    complete_documentation := countEq df Record.documentation_status "Complete"
    documentation_rate := safeRate (countEq df Record.documentation_status "Complete") total
    emergency_shelter := countEq df Record.shelter_status "Emergency"
    transitional_shelter := countEq df Record.shelter_status "Transitional"
    permanent_shelter := countEq df Record.shelter_status "Permanent"
    idp_count := countEq df Record.displacement_status "IDP"
    returnee_count := countEq df Record.displacement_status "Returnee"
    host_community_count := countEq df Record.displacement_status "Host Community"
    return_pathway := countEq df Record.solutions_pathway "Return"
    local_integration_pathway := countEq df Record.solutions_pathway "Local Integration"
    relocation_pathway := countEq df Record.solutions_pathway "Relocation"
    assessment_stage := countEq df Record.pathway_stage "Assessment"
    planning_stage := countEq df Record.pathway_stage "Planning"
    implementation_stage := countEq df Record.pathway_stage "Implementation"
    achieved_stage := countEq df Record.pathway_stage "Achieved"
    avg_household_size :=
      if 0 < total then some (((df.map fun r => r.household_size).sum : ℚ) / (total : ℚ))
      else none
    regions_covered := (uniqueFirst (df.map fun r => r.region)).length
    districts_covered := (uniqueFirst (df.map fun r => r.district)).length }

theorem safeRate_nonneg (c t : ℕ) : 0 ≤ safeRate c t := by
  unfold safeRate
  split
  · positivity
  · exact le_refl 0

theorem safeRate_le_one (c t : ℕ) (h : c ≤ t) : safeRate c t ≤ 1 := by
  unfold safeRate
  split
  · rename_i ht
    rw [div_le_one (by exact_mod_cast ht)]
    exact_mod_cast h
  · exact zero_le_one

theorem countEq_le_length (df : List Record) (f : Record → String) (v : String) :
    countEq df f v ≤ df.length :=
  List.countP_le_length _

theorem safeRate_of_pos (c t : ℕ) (h : 0 < t) : safeRate c t = (c : ℚ) / t :=
  if_pos h

theorem safeRate_of_zero (c : ℕ) : safeRate c 0 = 0 := by
  simp [safeRate]

/-- Sample records used to instantiate the universally quantified theorems. -/
def rec1 : Record :=
  ⟨"B1", "North", "D1", "IDP", "Return", "Achieved", 4, "Female",
    "Emergency", "Complete", "Yes", ⟨2024, 1, 15⟩⟩

def rec2 : Record :=
  ⟨"B2", "South", "D2", "Returnee", "Relocation", "Planning", 5, "Male",
    "Permanent", "Partial", "No", ⟨2024, 2, 10⟩⟩

/-- A record whose `displacement_status` lies outside the enumerated set
{IDP, Returnee, Host Community}: the loader retains such a record. -/
def rec3 : Record :=
  ⟨"B3", "East", "D3", "Refugee", "Return", "Assessment", 3, "Male",
    "Emergency", "None", "No", ⟨2024, 3, 1⟩⟩

/-- C1: each of the four KPI rates equals its count divided by
`total_beneficiaries` when the total is positive, lies in `[0,1]`, and is
`0` (not a division-by-zero failure) when `total_beneficiaries = 0`. -/
theorem calculate_kpis_rates (df : List Record) :
    (0 < (calculate_kpis df).total_beneficiaries →
      (calculate_kpis df).achievement_rate =
          ((calculate_kpis df).solutions_achieved : ℚ) /
            ((calculate_kpis df).total_beneficiaries : ℚ) ∧
      (calculate_kpis df).female_hoh_percentage =
          ((calculate_kpis df).female_hoh_count : ℚ) /
            ((calculate_kpis df).total_beneficiaries : ℚ) ∧
      (calculate_kpis df).livelihood_support_percentage =
          ((calculate_kpis df).livelihood_support_count : ℚ) /
            ((calculate_kpis df).total_beneficiaries : ℚ) ∧
      (calculate_kpis df).documentation_rate =
          ((calculate_kpis df).complete_documentation : ℚ) /
            ((calculate_kpis df).total_beneficiaries : ℚ)) ∧
    (0 ≤ (calculate_kpis df).achievement_rate ∧
      (calculate_kpis df).achievement_rate ≤ 1) ∧
    (0 ≤ (calculate_kpis df).female_hoh_percentage ∧
      (calculate_kpis df).female_hoh_percentage ≤ 1) ∧
    (0 ≤ (calculate_kpis df).livelihood_support_percentage ∧
      (calculate_kpis df).livelihood_support_percentage ≤ 1) ∧
    (0 ≤ (calculate_kpis df).documentation_rate ∧
      (calculate_kpis df).documentation_rate ≤ 1) ∧
    ((calculate_kpis df).total_beneficiaries = 0 →
      (calculate_kpis df).achievement_rate = 0 ∧
      (calculate_kpis df).female_hoh_percentage = 0 ∧
      (calculate_kpis df).livelihood_support_percentage = 0 ∧
      (calculate_kpis df).documentation_rate = 0) := by
  simp only [calculate_kpis]
  refine ⟨fun ht => ⟨?_, ?_, ?_, ?_⟩, ⟨?_, ?_⟩, ⟨?_, ?_⟩, ⟨?_, ?_⟩, ⟨?_, ?_⟩,
    fun h0 => ?_⟩
  · exact safeRate_of_pos _ _ ht
  · exact safeRate_of_pos _ _ ht
  · exact safeRate_of_pos _ _ ht
  · exact safeRate_of_pos _ _ ht
  · exact safeRate_nonneg _ _
  · exact safeRate_le_one _ _ (countEq_le_length df _ _)
  · exact safeRate_nonneg _ _
  · exact safeRate_le_one _ _ (countEq_le_length df _ _)
  · exact safeRate_nonneg _ _
  · exact safeRate_le_one _ _ (countEq_le_length df _ _)
  · exact safeRate_nonneg _ _
  · exact safeRate_le_one _ _ (countEq_le_length df _ _)
  · rw [h0]
    exact ⟨safeRate_of_zero _, safeRate_of_zero _, safeRate_of_zero _,
      safeRate_of_zero _⟩

theorem calculate_kpis_rates_witness :
    ((calculate_kpis [rec1, rec2]).achievement_rate =
        ((calculate_kpis [rec1, rec2]).solutions_achieved : ℚ) /
          ((calculate_kpis [rec1, rec2]).total_beneficiaries : ℚ)) ∧
    ((calculate_kpis []).achievement_rate = 0) := by
  refine ⟨((calculate_kpis_rates [rec1, rec2]).1 (by decide)).1, ?_⟩
  exact ((calculate_kpis_rates []).2.2.2.2.2 (by decide)).1

theorem sum_map_add_nat (l : List β) (f g : β → ℕ) :
    (l.map fun x => f x + g x).sum = (l.map f).sum + (l.map g).sum := by
  induction l with
  | nil => simp
  | cons a l ih => simp [ih]; omega

theorem sum_map_indicator [DecidableEq β] (keys : List β) (x : β)
    (hnd : keys.Nodup) (hx : x ∈ keys) :
    (keys.map fun k => if x = k then (1 : ℕ) else 0).sum = 1 := by
  induction keys with
  | nil => cases hx
  | cons k ks ih =>
    rcases List.nodup_cons.mp hnd with ⟨hk, hnd'⟩
    rcases List.mem_cons.mp hx with rfl | hx'
    · have h0 : (ks.map fun k' => if x = k' then (1 : ℕ) else 0).sum = 0 := by
        apply List.sum_eq_zero
        intro y hy
        rcases List.mem_map.mp hy with ⟨k', hk', rfl⟩
        have hne : x ≠ k' := fun he => hk (he ▸ hk')
        simp [hne]
      simp [h0]
    · have hxk : x ≠ k := fun he => (List.nodup_cons.mp hnd).1 (he ▸ hx')
      simp only [List.map_cons, List.sum_cons, if_neg hxk, ih hnd' hx']

/-- If every record's `f`-value lies in the duplicate-free list `vs`, the
per-value counts over `vs` partition the record set. -/
theorem countEq_partition (df : List Record) (f : Record → String)
    (vs : List String) (hnd : vs.Nodup) (hall : ∀ r ∈ df, f r ∈ vs) :
    (vs.map fun v => countEq df f v).sum = df.length := by
  induction df with
  | nil => simp [countEq]
  | cons r df ih =>
    have hstep : (vs.map fun v => countEq (r :: df) f v) =
        vs.map fun v => countEq df f v + if f r = v then 1 else 0 := by
      apply List.map_congr_left
      intro v _
      simp [countEq, List.countP_cons]
    have h1 : (vs.map fun v => if f r = v then (1 : ℕ) else 0).sum = 1 :=
      sum_map_indicator vs (f r) hnd (hall r (List.mem_cons_self r df))
    have h2 := ih fun r' hr' => hall r' (List.mem_cons_of_mem r hr')
    calc (vs.map fun v => countEq (r :: df) f v).sum
        = (vs.map fun v => countEq df f v + if f r = v then 1 else 0).sum := by
          rw [hstep]
      _ = (vs.map fun v => countEq df f v).sum +
            (vs.map fun v => if f r = v then (1 : ℕ) else 0).sum :=
          sum_map_add_nat vs _ _
      _ = df.length + 1 := by rw [h2, h1]
      _ = (r :: df).length := by simp

/-- C3 counterexample: a retained record whose `displacement_status` is
`"Refugee"` (outside the enumerated set) falls into none of the
per-value buckets, so the displacement-status counts do not sum to the
total: `calculate_kpis` has no Other/Unknown bucket. -/
theorem kpi_partition_counterexample :
    ¬((calculate_kpis [rec3]).idp_count + (calculate_kpis [rec3]).returnee_count +
        (calculate_kpis [rec3]).host_community_count =
      (calculate_kpis [rec3]).total_beneficiaries) := by
  decide

/-- C3 amended: for every record set all of whose categorical values lie
in the enumerated sets, the per-value counts reported by `calculate_kpis`
for each categorical field sum to the total record count.  (Records with
out-of-enumeration values are retained but counted in no bucket.) -/
theorem kpi_partition_amended (df : List Record) :
    ((∀ r ∈ df, r.pathway_stage ∈
        ["Assessment", "Planning", "Implementation", "Achieved"]) →
      (calculate_kpis df).assessment_stage + (calculate_kpis df).planning_stage +
        (calculate_kpis df).implementation_stage + (calculate_kpis df).achieved_stage =
        (calculate_kpis df).total_beneficiaries) ∧
    ((∀ r ∈ df, r.displacement_status ∈ ["IDP", "Returnee", "Host Community"]) →
      (calculate_kpis df).idp_count + (calculate_kpis df).returnee_count +
        (calculate_kpis df).host_community_count =
        (calculate_kpis df).total_beneficiaries) ∧
    ((∀ r ∈ df, r.solutions_pathway ∈ ["Return", "Local Integration", "Relocation"]) →
      (calculate_kpis df).return_pathway + (calculate_kpis df).local_integration_pathway +
        (calculate_kpis df).relocation_pathway =
        (calculate_kpis df).total_beneficiaries) ∧
    ((∀ r ∈ df, r.shelter_status ∈ ["Emergency", "Transitional", "Permanent"]) →
      (calculate_kpis df).emergency_shelter + (calculate_kpis df).transitional_shelter +
        (calculate_kpis df).permanent_shelter =
        (calculate_kpis df).total_beneficiaries) := by
  refine ⟨fun hall => ?_, fun hall => ?_, fun hall => ?_, fun hall => ?_⟩
  · have h := countEq_partition df Record.pathway_stage
      ["Assessment", "Planning", "Implementation", "Achieved"] (by decide) hall
    simp only [List.map_cons, List.map_nil, List.sum_cons, List.sum_nil] at h
    simp only [calculate_kpis]
    omega
  · have h := countEq_partition df Record.displacement_status
      ["IDP", "Returnee", "Host Community"] (by decide) hall
    simp only [List.map_cons, List.map_nil, List.sum_cons, List.sum_nil] at h
    simp only [calculate_kpis]
    omega
  · have h := countEq_partition df Record.solutions_pathway
      ["Return", "Local Integration", "Relocation"] (by decide) hall
    simp only [List.map_cons, List.map_nil, List.sum_cons, List.sum_nil] at h
    simp only [calculate_kpis]
    omega
  · have h := countEq_partition df Record.shelter_status
      ["Emergency", "Transitional", "Permanent"] (by decide) hall
    simp only [List.map_cons, List.map_nil, List.sum_cons, List.sum_nil] at h
    simp only [calculate_kpis]
    omega

theorem kpi_partition_amended_witness :
    ((calculate_kpis [rec1, rec2]).assessment_stage +
        (calculate_kpis [rec1, rec2]).planning_stage +
        (calculate_kpis [rec1, rec2]).implementation_stage +
        (calculate_kpis [rec1, rec2]).achieved_stage =
      (calculate_kpis [rec1, rec2]).total_beneficiaries) ∧
    ((calculate_kpis [rec1, rec2]).idp_count +
        (calculate_kpis [rec1, rec2]).returnee_count +
        (calculate_kpis [rec1, rec2]).host_community_count =
      (calculate_kpis [rec1, rec2]).total_beneficiaries) := by
  exact ⟨(kpi_partition_amended [rec1, rec2]).1 (by decide),
    (kpi_partition_amended [rec1, rec2]).2.1 (by decide)⟩

/-- The filter-selection dictionary built by `render_sidebar_filters`
(`src/components/filters.py`).  `none` models a key absent from the
dictionary; the string `"All"` is the no-filter sentinel.  `date_start`
and `date_end` are set together, as is the household-size pair. -/
structure Filters where
  region : Option String
  district : Option String
  solutions_pathway : Option String
  pathway_stage : Option String
  displacement_status : Option String
  gender_hoh : Option String
  shelter_status : Option String
  livelihood_support : Option String
  documentation_status : Option String
  date_range : Option (Date × Date)
  household_size_range : Option (ℤ × ℤ)
deriving DecidableEq, Repr

/-- One pass of the categorical loop in `apply_filters`
(`if col in filters and filters[col] != 'All': ...`). -/
def applyCat (df : List Record) (f : Record → String) (sel : Option String) :
    List Record :=
  match sel with
  | some v => if v ≠ "All" then df.filter fun r => decide (f r = v) else df
  | none => df

/-- `apply_filters` (`src/components/filters.py`, lines 204–245): the nine
categorical filters in the order of `categorical_filters`, then the
inclusive date-range filter, then the inclusive household-size filter. -/
def apply_filters (df : List Record) (fs : Filters) : List Record :=
  let d1 := applyCat df Record.region fs.region
  let d2 := applyCat d1 Record.district fs.district
  let d3 := applyCat d2 Record.solutions_pathway fs.solutions_pathway
  let d4 := applyCat d3 Record.pathway_stage fs.pathway_stage
  let d5 := applyCat d4 Record.displacement_status fs.displacement_status
  let d6 := applyCat d5 Record.gender_hoh fs.gender_hoh
  let d7 := applyCat d6 Record.shelter_status fs.shelter_status
  let d8 := applyCat d7 Record.livelihood_support fs.livelihood_support
  let d9 := applyCat d8 Record.documentation_status fs.documentation_status
  let d10 :=
    match fs.date_range with
    | some (s, e) =>
        d9.filter fun r => Date.le s r.registration_date &&
          Date.le r.registration_date e
    | none => d9
  match fs.household_size_range with
  | some (lo, hi) =>
      d10.filter fun r => decide (lo ≤ r.household_size) &&
        decide (r.household_size ≤ hi)
  | none => d10

/-- Whether a record passes one categorical filter entry. -/
def catOk (sel : Option String) (v : String) : Bool :=
  match sel with
  | some s => if s ≠ "All" then decide (v = s) else true
  | none => true

/-- Whether a record passes the date-range filter entry. -/
def dateOk (sel : Option (Date × Date)) (d : Date) : Bool :=
  match sel with
  | some (s, e) => Date.le s d && Date.le d e
  | none => true

/-- Whether a record passes the household-size filter entry. -/
def sizeOk (sel : Option (ℤ × ℤ)) (n : ℤ) : Bool :=
  match sel with
  | some (lo, hi) => decide (lo ≤ n) && decide (n ≤ hi)
  | none => true

/-- Conjunction of every selected criterion of a filter selection. -/
def matchesFilters (fs : Filters) (r : Record) : Bool :=
  catOk fs.region r.region && catOk fs.district r.district &&
    catOk fs.solutions_pathway r.solutions_pathway &&
    catOk fs.pathway_stage r.pathway_stage &&
    catOk fs.displacement_status r.displacement_status &&
    catOk fs.gender_hoh r.gender_hoh &&
    catOk fs.shelter_status r.shelter_status &&
    catOk fs.livelihood_support r.livelihood_support &&
    catOk fs.documentation_status r.documentation_status &&
    dateOk fs.date_range r.registration_date &&
    sizeOk fs.household_size_range r.household_size

theorem applyCat_eq_filter (df : List Record) (f : Record → String)
    (sel : Option String) :
    applyCat df f sel = df.filter fun r => catOk sel (f r) := by
  cases sel with
  | none => simp [applyCat, catOk]
  | some v =>
    by_cases hv : v = "All"
    · simp [applyCat, catOk, hv]
    · simp [applyCat, catOk, hv]

/-- A categorical filter entry that selects nothing: the key is absent or
holds the `"All"` sentinel. -/
def catInactive (sel : Option String) : Prop := sel = none ∨ sel = some "All"

instance (sel : Option String) : Decidable (catInactive sel) := by
  unfold catInactive; infer_instance

theorem catOk_of_inactive (sel : Option String) (h : catInactive sel) (v : String) :
    catOk sel v = true := by
  rcases h with rfl | rfl <;> simp [catOk]

theorem apply_filters_eq_filter (df : List Record) (fs : Filters) :
    apply_filters df fs = df.filter (matchesFilters fs) := by
  simp only [apply_filters, applyCat_eq_filter]
  rcases fs with ⟨reg, dis, sol, pat, dsp, gen, she, liv, doc, dr, hhr⟩
  cases dr with
  | none =>
    cases hhr with
    | none =>
      simp only [List.filter_filter]
      apply List.filter_congr
      intro r _
      simp [matchesFilters, dateOk, sizeOk, Bool.and_assoc, Bool.and_comm,
        Bool.and_left_comm]
    | some p =>
      cases p
      simp only [List.filter_filter]
      apply List.filter_congr
      intro r _
      simp [matchesFilters, dateOk, sizeOk, Bool.and_assoc, Bool.and_comm,
        Bool.and_left_comm]
  | some p =>
    cases p
    cases hhr with
    | none =>
      simp only [List.filter_filter]
      apply List.filter_congr
      intro r _
      simp [matchesFilters, dateOk, sizeOk, Bool.and_assoc, Bool.and_comm,
        Bool.and_left_comm]
    | some q =>
      cases q
      simp only [List.filter_filter]
      apply List.filter_congr
      intro r _
      simp [matchesFilters, dateOk, sizeOk, Bool.and_assoc, Bool.and_comm,
        Bool.and_left_comm]

/-- C2: `apply_filters` returns exactly the records satisfying the
conjunction of all selected criteria, in the original order (it is a
sublist of the input); it is the identity when every categorical entry is
absent or `"All"` and the date and size bounds cover every record, and it
returns the empty list (not an error) when no record matches. -/
theorem apply_filters_spec (df : List Record) (fs : Filters) :
    apply_filters df fs = df.filter (matchesFilters fs) ∧
    (apply_filters df fs).Sublist df ∧
    ((catInactive fs.region ∧ catInactive fs.district ∧
        catInactive fs.solutions_pathway ∧ catInactive fs.pathway_stage ∧
        catInactive fs.displacement_status ∧ catInactive fs.gender_hoh ∧
        catInactive fs.shelter_status ∧ catInactive fs.livelihood_support ∧
        catInactive fs.documentation_status) →
      (∀ r ∈ df, dateOk fs.date_range r.registration_date = true) →
      (∀ r ∈ df, sizeOk fs.household_size_range r.household_size = true) →
      apply_filters df fs = df) ∧
    ((∀ r ∈ df, matchesFilters fs r = false) → apply_filters df fs = []) := by
  refine ⟨apply_filters_eq_filter df fs, ?_, ?_, ?_⟩
  · rw [apply_filters_eq_filter]
    exact List.filter_sublist df
  · rintro ⟨h1, h2, h3, h4, h5, h6, h7, h8, h9⟩ hdate hsize
    rw [apply_filters_eq_filter]
    apply List.filter_eq_self.mpr
    intro r hr
    simp [matchesFilters, catOk_of_inactive _ h1, catOk_of_inactive _ h2,
      catOk_of_inactive _ h3, catOk_of_inactive _ h4, catOk_of_inactive _ h5,
      catOk_of_inactive _ h6, catOk_of_inactive _ h7, catOk_of_inactive _ h8,
      catOk_of_inactive _ h9, hdate r hr, hsize r hr]
  · intro hnone
    rw [apply_filters_eq_filter]
    apply List.filter_eq_nil_iff.mpr
    intro r hr
    simp [hnone r hr]

/-- A no-op selection: two `"All"` sentinels, everything else absent. -/
def fsAllSentinel : Filters :=
  ⟨some "All", some "All", none, none, none, none, none, none, none, none, none⟩

/-- A selection matching nothing in the sample data. -/
def fsNowhere : Filters :=
  ⟨some "Nowhere", none, none, none, none, none, none, none, none, none, none⟩

theorem apply_filters_spec_witness :
    apply_filters [rec1, rec2] fsAllSentinel = [rec1, rec2] ∧
    apply_filters [rec1, rec2] fsNowhere = [] := by
  refine ⟨(apply_filters_spec [rec1, rec2] fsAllSentinel).2.2.1
    (by decide) (by decide) (by decide), ?_⟩
  exact (apply_filters_spec [rec1, rec2] fsNowhere).2.2.2 (by decide)

/-- pandas `.round(1)`: one decimal place.  (The claims do not depend on
the tie-breaking rule, so `round` stands in for float half-even.) -/
def round1 (q : ℚ) : ℚ := (Rat.floor (q * 10 + 1 / 2) : ℚ) / 10

/-- Alphabetical order on strings (pandas `groupby` sorts group keys
ascending). -/
def strLe (a b : String) : Prop := a < b ∨ a = b

instance : DecidableRel strLe := fun a b => by unfold strLe; infer_instance

/-- One row of the `get_regional_summary` result. -/
structure RegionRow where
  region : String
  beneficiaries : ℕ
  individuals : ℤ
  female_hoh : ℕ
  achieved : ℕ
  livelihood_support : ℕ
  achievement_rate : ℚ
  female_hoh_rate : ℚ
deriving DecidableEq, Repr

/-- The aggregation row for one region group (`groupby('region').agg`
plus the two percentage columns). -/
def mkRegionRow (df : List Record) (g : String) : RegionRow :=
  let grp := df.filter fun r => decide (r.region = g)
  { region := g
    beneficiaries := grp.length
    individuals := (grp.map fun r => r.household_size).sum
    female_hoh := grp.countP Record.is_female_hoh
    achieved := grp.countP Record.is_achieved
    livelihood_support := grp.countP Record.has_livelihood_support
    achievement_rate :=
      round1 ((grp.countP Record.is_achieved : ℚ) / (grp.length : ℚ) * 100)
    female_hoh_rate :=
      round1 ((grp.countP Record.is_female_hoh : ℚ) / (grp.length : ℚ) * 100) }

/-- Descending beneficiary count (`sort_values('beneficiaries',
ascending=False)`; pandas leaves tie order unspecified, a stable sort is
one admissible determinization). -/
def byBeneficiariesDesc (a b : RegionRow) : Prop := b.beneficiaries ≤ a.beneficiaries

instance : DecidableRel byBeneficiariesDesc := fun a b =>
  Nat.decLe b.beneficiaries a.beneficiaries

instance : IsTotal RegionRow byBeneficiariesDesc :=
  ⟨fun a b => le_total b.beneficiaries a.beneficiaries⟩

instance : IsTrans RegionRow byBeneficiariesDesc :=
  ⟨fun _ _ _ hab hbc => le_trans hbc hab⟩

/-- `get_regional_summary` (`src/utils/data_processing.py`, lines
198–226): group by region (keys ascending), aggregate, then sort by
beneficiary count descending. -/
def get_regional_summary (df : List Record) : List RegionRow :=
  List.insertionSort byBeneficiariesDesc
    ((List.insertionSort strLe (uniqueFirst (df.map fun r => r.region))).map
      (mkRegionRow df))

/-- The regional-summary scenario data: one North record, two South
records, all `Achieved`. -/
def recN : Record :=
  ⟨"N1", "North", "DN", "IDP", "Return", "Achieved", 3, "Male",
    "Emergency", "Complete", "Yes", ⟨2024, 1, 5⟩⟩

def recS1 : Record :=
  ⟨"S1", "South", "DS", "IDP", "Return", "Achieved", 4, "Female",
    "Emergency", "Complete", "Yes", ⟨2024, 1, 6⟩⟩

def recS2 : Record :=
  ⟨"S2", "South", "DS", "IDP", "Return", "Achieved", 6, "Male",
    "Emergency", "Complete", "No", ⟨2024, 2, 7⟩⟩

def dfNS : List Record := [recN, recS1, recS2]

/-- C6: the regional summary has one row per region present (regions with
no records are omitted), each row's rates are the rounded percentages of
its own counts, rows are ordered by beneficiary count descending, and the
North/South scenario computes as the claim states. -/
theorem get_regional_summary_spec (df : List Record) :
    (∀ g, (∃ row ∈ get_regional_summary df, row.region = g) ↔
      g ∈ df.map fun r => r.region) ∧
    ((get_regional_summary df).map RegionRow.region).Nodup ∧
    (∀ row ∈ get_regional_summary df,
      row.beneficiaries = (df.filter fun r => decide (r.region = row.region)).length ∧
      0 < row.beneficiaries ∧
      row.achievement_rate =
        round1 ((row.achieved : ℚ) / (row.beneficiaries : ℚ) * 100) ∧
      row.female_hoh_rate =
        round1 ((row.female_hoh : ℚ) / (row.beneficiaries : ℚ) * 100)) ∧
    (get_regional_summary df).Pairwise byBeneficiariesDesc ∧
    get_regional_summary dfNS =
      [⟨"South", 2, 10, 1, 2, 1, 100, 50⟩, ⟨"North", 1, 3, 0, 1, 1, 100, 0⟩] := by
  have hperm : List.Perm (get_regional_summary df)
      ((uniqueFirst (df.map fun r => r.region)).map (mkRegionRow df)) := by
    refine (List.perm_insertionSort _ _).trans (List.Perm.map _ ?_)
    exact List.perm_insertionSort _ _
  have hmem : ∀ row, row ∈ get_regional_summary df ↔
      ∃ g ∈ uniqueFirst (df.map fun r => r.region), mkRegionRow df g = row := by
    intro row
    rw [hperm.mem_iff, List.mem_map]
  refine ⟨?_, ?_, ?_, ?_, ?_⟩
  · intro g
    constructor
    · rintro ⟨row, hrow, rfl⟩
      rcases (hmem row).mp hrow with ⟨g', hg', rfl⟩
      simpa using (mem_uniqueFirst _ _).mp hg'
    · intro hg
      refine ⟨mkRegionRow df g, (hmem _).mpr ⟨g, (mem_uniqueFirst _ _).mpr hg, rfl⟩, rfl⟩
  · have h1 : List.Perm ((get_regional_summary df).map RegionRow.region)
        (((uniqueFirst (df.map fun r => r.region)).map (mkRegionRow df)).map
          RegionRow.region) := hperm.map _
    have h2 : ((uniqueFirst (df.map fun r => r.region)).map (mkRegionRow df)).map
        RegionRow.region = uniqueFirst (df.map fun r => r.region) := by
      rw [List.map_map]
      apply List.map_id''
      intro g
      rfl
    refine (h1.nodup_iff).mpr ?_
    rw [h2]
    exact nodup_uniqueFirst _
  · intro row hrow
    rcases (hmem row).mp hrow with ⟨g, hg, rfl⟩
    have hgdf : g ∈ df.map fun r => r.region := (mem_uniqueFirst _ _).mp hg
    rcases List.mem_map.mp hgdf with ⟨r0, hr0, rfl⟩
    have hmemf : r0 ∈ df.filter fun r => decide (r.region = r0.region) :=
      List.mem_filter.mpr ⟨hr0, by simp⟩
    have hpos : 0 < (df.filter fun r => decide (r.region = r0.region)).length :=
      List.length_pos.mpr (List.ne_nil_of_mem hmemf)
    exact ⟨rfl, hpos, rfl, rfl⟩
  · exact List.sorted_insertionSort _ _
  · simp +decide [get_regional_summary, mkRegionRow, uniqueFirst, uniqueAux, dfNS,
      recN, recS1, recS2, List.insertionSort, List.orderedInsert, strLe,
      byBeneficiariesDesc, Record.is_achieved, Record.is_female_hoh,
      Record.has_livelihood_support]
    norm_num [round1, Rat.floor]

theorem get_regional_summary_spec_witness :
    (⟨"South", 2, 10, 1, 2, 1, 100, 50⟩ : RegionRow).beneficiaries =
      (dfNS.filter fun r =>
        decide (r.region = (⟨"South", 2, 10, 1, 2, 1, 100, 50⟩ : RegionRow).region)).length ∧
    0 < (⟨"South", 2, 10, 1, 2, 1, 100, 50⟩ : RegionRow).beneficiaries ∧
    (⟨"South", 2, 10, 1, 2, 1, 100, 50⟩ : RegionRow).achievement_rate =
      round1 (((⟨"South", 2, 10, 1, 2, 1, 100, 50⟩ : RegionRow).achieved : ℚ) /
        ((⟨"South", 2, 10, 1, 2, 1, 100, 50⟩ : RegionRow).beneficiaries : ℚ) * 100) ∧
    (⟨"South", 2, 10, 1, 2, 1, 100, 50⟩ : RegionRow).female_hoh_rate =
      round1 (((⟨"South", 2, 10, 1, 2, 1, 100, 50⟩ : RegionRow).female_hoh : ℚ) /
        ((⟨"South", 2, 10, 1, 2, 1, 100, 50⟩ : RegionRow).beneficiaries : ℚ) * 100) :=
  (get_regional_summary_spec dfNS).2.2.1 ⟨"South", 2, 10, 1, 2, 1, 100, 50⟩
    (by
      simp +decide [get_regional_summary, mkRegionRow, uniqueFirst, uniqueAux,
        dfNS, recN, recS1, recS2, List.insertionSort, List.orderedInsert, strLe,
        byBeneficiariesDesc, Record.is_achieved, Record.is_female_hoh,
        Record.has_livelihood_support]
      norm_num [round1, Rat.floor])

/-- One row of the `get_monthly_trends` result (month bucket, value,
running cumulative sum). -/
structure TrendRow where
  month : ℕ
  value : ℚ
  cumulative : ℚ
deriving DecidableEq, Repr

/-- The aggregated value of one month group: row count by default, or the
sum of the requested value column (`value_col`). -/
def monthValue (df : List Record) (val : Option (Record → ℚ)) (m : ℕ) : ℚ :=
  match val with
  | some f => ((df.filter fun r => decide (monthIdx r.registration_date = m)).map f).sum
  | none => ((df.filter fun r => decide (monthIdx r.registration_date = m)).length : ℚ)

/-- `monthly['cumulative'] = monthly['value'].cumsum()`. -/
def addCumulative (acc : ℚ) : List (ℕ × ℚ) → List TrendRow
  | [] => []
  | (m, v) :: l => ⟨m, v, acc + v⟩ :: addCumulative (acc + v) l

/-- `get_monthly_trends` (`src/utils/data_processing.py`, lines 165–195):
group by calendar month (keys ascending), aggregate, append the running
cumulative sum. -/
def get_monthly_trends (df : List Record) (val : Option (Record → ℚ)) :
    List TrendRow :=
  addCumulative 0
    ((List.insertionSort (· ≤ ·)
        (uniqueFirst (df.map fun r => monthIdx r.registration_date))).map
      fun m => (m, monthValue df val m))

theorem addCumulative_map_month (l : List (ℕ × ℚ)) :
    ∀ acc, (addCumulative acc l).map TrendRow.month = l.map Prod.fst := by
  induction l with
  | nil => intro acc; rfl
  | cons p l ih =>
    intro acc
    cases p
    simp [addCumulative, ih]

theorem addCumulative_map_value (l : List (ℕ × ℚ)) :
    ∀ acc, (addCumulative acc l).map TrendRow.value = l.map Prod.snd := by
  induction l with
  | nil => intro acc; rfl
  | cons p l ih =>
    intro acc
    cases p
    simp [addCumulative, ih]

theorem addCumulative_mem (l : List (ℕ × ℚ)) :
    ∀ acc row, row ∈ addCumulative acc l → (row.month, row.value) ∈ l := by
  induction l with
  | nil => intro acc row h; cases h
  | cons p l ih =>
    intro acc row h
    cases p with
    | mk m v =>
      rcases List.mem_cons.mp h with rfl | h'
      · exact List.mem_cons_self _ _
      · exact List.mem_cons_of_mem _ (ih _ row h')

theorem addCumulative_get (l : List (ℕ × ℚ)) :
    ∀ acc i (h : i < (addCumulative acc l).length),
      ((addCumulative acc l).get ⟨i, h⟩).cumulative =
        acc + ((l.take (i + 1)).map Prod.snd).sum := by
  induction l with
  | nil => intro acc i h; simp [addCumulative] at h
  | cons p l ih =>
    intro acc i h
    cases p with
    | mk m v =>
      cases i with
      | zero => simp [addCumulative]
      | succ i =>
        have h' : i < (addCumulative (acc + v) l).length := by
          simpa [addCumulative] using h
        have := ih (acc + v) i h'
        simp only [addCumulative, List.get_cons_succ, List.take_succ_cons,
          List.map_cons, List.sum_cons] at this ⊢
        rw [this]
        ring

/-- C7: the monthly trend has exactly one row per month present in the
data, months strictly increasing, value equal to the month's row count
(or requested column sum), and cumulative equal to the prefix sum of the
value column. -/
theorem get_monthly_trends_spec (df : List Record) (val : Option (Record → ℚ)) :
    (∀ m, (∃ row ∈ get_monthly_trends df val, row.month = m) ↔
      m ∈ df.map fun r => monthIdx r.registration_date) ∧
    ((get_monthly_trends df val).map TrendRow.month).Nodup ∧
    (get_monthly_trends df val).Pairwise (fun a b => a.month < b.month) ∧
    (∀ row ∈ get_monthly_trends df val, row.value = monthValue df val row.month) ∧
    (∀ i (h : i < (get_monthly_trends df val).length),
      ((get_monthly_trends df val).get ⟨i, h⟩).cumulative =
        (((get_monthly_trends df val).map TrendRow.value).take (i + 1)).sum) := by
  have hmonths : (get_monthly_trends df val).map TrendRow.month =
      List.insertionSort (· ≤ ·)
        (uniqueFirst (df.map fun r => monthIdx r.registration_date)) := by
    rw [get_monthly_trends, addCumulative_map_month, List.map_map]
    apply List.map_id''
    intro m
    rfl
  have hperm : List.Perm
      (List.insertionSort (· ≤ ·)
        (uniqueFirst (df.map fun r => monthIdx r.registration_date)))
      (uniqueFirst (df.map fun r => monthIdx r.registration_date)) :=
    List.perm_insertionSort _ _
  have hnd : ((get_monthly_trends df val).map TrendRow.month).Nodup := by
    rw [hmonths]
    exact hperm.nodup_iff.mpr (nodup_uniqueFirst _)
  refine ⟨?_, hnd, ?_, ?_, ?_⟩
  · intro m
    constructor
    · rintro ⟨row, hrow, rfl⟩
      have : row.month ∈ (get_monthly_trends df val).map TrendRow.month :=
        List.mem_map_of_mem _ hrow
      rw [hmonths] at this
      exact (mem_uniqueFirst _ _).mp (hperm.mem_iff.mp this)
    · intro hm
      have : m ∈ (get_monthly_trends df val).map TrendRow.month := by
        rw [hmonths]
        exact hperm.mem_iff.mpr ((mem_uniqueFirst _ _).mpr hm)
      rcases List.mem_map.mp this with ⟨row, hrow, he⟩
      exact ⟨row, hrow, he⟩
  · have hsorted : ((get_monthly_trends df val).map TrendRow.month).Pairwise
        (· ≤ ·) := by
      rw [hmonths]
      exact List.sorted_insertionSort _ _
    have hlt : ((get_monthly_trends df val).map TrendRow.month).Pairwise
        (· < ·) :=
      (hsorted.and hnd).imp fun h => lt_of_le_of_ne h.1 h.2
    exact (List.pairwise_map.mp hlt).imp fun h => h
  · intro row hrow
    have hp := addCumulative_mem _ _ _ hrow
    rcases List.mem_map.mp hp with ⟨m, _, he⟩
    have h1 : m = row.month := congrArg Prod.fst he
    have h2 : monthValue df val m = row.value := congrArg Prod.snd he
    rw [← h2, h1]
  · intro i h
    have := addCumulative_get _ 0 i h
    simp only [get_monthly_trends] at this ⊢
    rw [this, addCumulative_map_value, zero_add]
    simp [List.map_take]

theorem get_monthly_trends_spec_witness :
    ((get_monthly_trends [rec1, rec2] none).get ⟨1, by decide⟩).cumulative =
      (((get_monthly_trends [rec1, rec2] none).map TrendRow.value).take
        (1 + 1)).sum :=
  (get_monthly_trends_spec [rec1, rec2] none).2.2.2.2 1 (by decide)

/-- One row of the `get_pathway_progress` pivot: the four stage columns
in the fixed order of `stage_order`, the `Total` row sum and the
`Achievement Rate` column (`none` embeds the pandas `NaN` from `0/0`). -/
structure ProgressRow where
  solutions_pathway : String
  assessment : ℕ
  planning : ℕ
  implementation : ℕ
  achieved : ℕ
  total : ℕ
  achievement_rate : Option ℚ
deriving DecidableEq, Repr

/-- `groupby(['solutions_pathway', 'pathway_stage']).size()` for one
(pathway, stage) cell; a missing combination is simply count 0, which is
the pivot's `fill_value=0`. -/
def stageCount (df : List Record) (p s : String) : ℕ :=
  df.countP fun r => decide (r.solutions_pathway = p) && decide (r.pathway_stage = s)

/-- One pivot row.  `reindex(columns=stage_order, fill_value=0)` keeps
exactly the four enumerated stages (any other stage column is dropped),
`Total` sums those four, and `Achieved/Total` is pandas float division:
`0/0` is `NaN`, embedded as `none` (the only reachable zero-denominator
case, since `achieved ≤ total`). -/
def mkProgressRow (df : List Record) (p : String) : ProgressRow :=
  let a := stageCount df p "Assessment"
  let b := stageCount df p "Planning"
  let c := stageCount df p "Implementation"
  let d := stageCount df p "Achieved"
  let tot := a + b + c + d
  ⟨p, a, b, c, d, tot,
    if tot = 0 then none else some (round1 ((d : ℚ) / (tot : ℚ) * 100))⟩

/-- `get_pathway_progress` (`src/utils/data_processing.py`, lines
229–252): one pivot row per pathway present (keys ascending). -/
def get_pathway_progress (df : List Record) : List ProgressRow :=
  (List.insertionSort strLe (uniqueFirst (df.map fun r => r.solutions_pathway))).map
    (mkProgressRow df)

/-- A retained record whose `pathway_stage` lies outside the enumerated
stage set, so its pathway's four pivot columns are all zero. -/
def recU : Record :=
  ⟨"B9", "West", "D9", "IDP", "Return", "Unknown", 2, "Male",
    "Emergency", "None", "No", ⟨2024, 4, 2⟩⟩

/-- C4 counterexample: on a record set whose only `Return` record carries
an out-of-enumeration stage, the `Return` row has `Total = 0` and the
code computes `Achieved/Total = 0/0 = NaN` (embedded `none`), not the
claimed `0`. -/
theorem pathway_progress_zero_counterexample :
    ¬(∀ row ∈ get_pathway_progress [recU], row.total = 0 →
        row.achievement_rate = some 0) := by
  decide

/-- C4 amended: one pivot row per pathway present with the four stage
columns in fixed order (missing combinations 0), `Total` the sum of the
four stage columns, and `Achievement Rate` equal to Achieved/Total × 100
rounded to 1 decimal when `Total > 0` — but `NaN` (not 0) when
`Total = 0`. -/
theorem get_pathway_progress_spec (df : List Record) :
    (∀ p, (∃ row ∈ get_pathway_progress df, row.solutions_pathway = p) ↔
      p ∈ df.map fun r => r.solutions_pathway) ∧
    ((get_pathway_progress df).map ProgressRow.solutions_pathway).Nodup ∧
    (∀ row ∈ get_pathway_progress df,
      row.assessment = stageCount df row.solutions_pathway "Assessment" ∧
      row.planning = stageCount df row.solutions_pathway "Planning" ∧
      row.implementation = stageCount df row.solutions_pathway "Implementation" ∧
      row.achieved = stageCount df row.solutions_pathway "Achieved" ∧
      row.total = row.assessment + row.planning + row.implementation + row.achieved ∧
      (0 < row.total → row.achievement_rate =
        some (round1 ((row.achieved : ℚ) / (row.total : ℚ) * 100))) ∧
      (row.total = 0 → row.achievement_rate = none)) := by
  have hperm : List.Perm (get_pathway_progress df)
      ((uniqueFirst (df.map fun r => r.solutions_pathway)).map (mkProgressRow df)) :=
    List.Perm.map _ (List.perm_insertionSort _ _)
  have hmem : ∀ row, row ∈ get_pathway_progress df ↔
      ∃ p ∈ uniqueFirst (df.map fun r => r.solutions_pathway),
        mkProgressRow df p = row := by
    intro row
    rw [hperm.mem_iff, List.mem_map]
  refine ⟨?_, ?_, ?_⟩
  · intro p
    constructor
    · rintro ⟨row, hrow, rfl⟩
      rcases (hmem row).mp hrow with ⟨p', hp', rfl⟩
      simpa using (mem_uniqueFirst _ _).mp hp'
    · intro hp
      exact ⟨mkProgressRow df p,
        (hmem _).mpr ⟨p, (mem_uniqueFirst _ _).mpr hp, rfl⟩, rfl⟩
  · have h1 : List.Perm ((get_pathway_progress df).map ProgressRow.solutions_pathway)
        (((uniqueFirst (df.map fun r => r.solutions_pathway)).map
          (mkProgressRow df)).map ProgressRow.solutions_pathway) := hperm.map _
    have h2 : ((uniqueFirst (df.map fun r => r.solutions_pathway)).map
        (mkProgressRow df)).map ProgressRow.solutions_pathway =
        uniqueFirst (df.map fun r => r.solutions_pathway) := by
      rw [List.map_map]
      apply List.map_id''
      intro p
      rfl
    refine (h1.nodup_iff).mpr ?_
    rw [h2]
    exact nodup_uniqueFirst _
  · intro row hrow
    rcases (hmem row).mp hrow with ⟨p, _, rfl⟩
    refine ⟨rfl, rfl, rfl, rfl, rfl, ?_, ?_⟩
    · intro hpos
      have hne : stageCount df p "Assessment" + stageCount df p "Planning" +
          stageCount df p "Implementation" + stageCount df p "Achieved" ≠ 0 :=
        Nat.pos_iff_ne_zero.mp hpos
      simp only [mkProgressRow, if_neg hne]
    · intro hz
      have hz' : stageCount df p "Assessment" + stageCount df p "Planning" +
          stageCount df p "Implementation" + stageCount df p "Achieved" = 0 := hz
      simp only [mkProgressRow]
      rw [if_pos hz']

theorem get_pathway_progress_spec_witness :
    (⟨"Return", 0, 0, 0, 1, 1, some 100⟩ : ProgressRow).achievement_rate =
      some (round1 (((⟨"Return", 0, 0, 0, 1, 1, some 100⟩ : ProgressRow).achieved : ℚ) /
        ((⟨"Return", 0, 0, 0, 1, 1, some 100⟩ : ProgressRow).total : ℚ) * 100)) := by
  refine ((get_pathway_progress_spec [rec1]).2.2
    ⟨"Return", 0, 0, 0, 1, 1, some 100⟩ ?_).2.2.2.2.2.1 (by norm_num)
  simp +decide [get_pathway_progress, mkProgressRow, stageCount, uniqueFirst,
    uniqueAux, rec1, List.insertionSort, List.orderedInsert, strLe]
  norm_num [round1, Rat.floor]

/-- C5 counterexample: on the empty record set `calculate_kpis` computes
`avg_household_size` as the pandas `mean` of an empty series, which is
`NaN` (embedded `none`), not the claimed `0`. -/
theorem empty_avg_counterexample :
    (calculate_kpis []).avg_household_size ≠ some 0 := by
  decide

/-- C5 amended: every core operation is well defined and non-crashing on
the empty record set — zero total, zero achievement rate and three empty
report tables — but `avg_household_size` is `NaN` (pandas `mean` of an
empty series), not `0`. -/
theorem empty_input_spec :
    (calculate_kpis []).total_beneficiaries = 0 ∧
    (calculate_kpis []).achievement_rate = 0 ∧
    (calculate_kpis []).avg_household_size = none ∧
    get_regional_summary [] = [] ∧
    get_monthly_trends [] none = [] ∧
    get_monthly_trends [] (some fun r => (r.household_size : ℚ)) = [] ∧
    get_pathway_progress [] = [] :=
  ⟨rfl, rfl, rfl, rfl, rfl, rfl, rfl⟩

/-- Lexicographic order on the two-column group keys (pandas `groupby`
on two columns sorts keys ascending). -/
def pairLe (p q : String × String) : Prop :=
  p.1 < q.1 ∨ (p.1 = q.1 ∧ strLe p.2 q.2)

instance : DecidableRel pairLe := fun p q => by
  unfold pairLe
  infer_instance

/-- `df.groupby([colA, colB]).size().reset_index(name='count')`: one entry
per (value-in-A, value-in-B) combination observed, with its record
count. -/
def flowCounts (df : List Record) (fc gc : Record → String) :
    List (String × String × ℕ) :=
  (List.insertionSort pairLe (uniqueFirst (df.map fun r => (fc r, gc r)))).map
    fun p => (p.1, p.2, df.countP fun r => decide (fc r = p.1) && decide (gc r = p.2))

/-- The index dictionary `{label: idx for idx, label in enumerate(labels)}`.
A Python dict comprehension lets a later `(idx, label)` binding overwrite
an earlier one, so lookup returns the index of a label's LAST occurrence;
this function is that lookup. -/
def labelToIdx : List String → String → Option ℕ
  | [], _ => none
  | a :: l, x =>
    match labelToIdx l x with
    | some j => some (j + 1)
    | none => if x = a then some 0 else none

/-- `prepare_sankey_data` (`src/utils/data_processing.py`, lines 112–162)
and the identical index computation of `create_sankey`
(`src/components/sankey_diagram.py`, lines 53–97): label list, then the
parallel source-index, target-index and value lists built from the two
pairwise flow tables.  (The dictionary lookup never misses, since every
grouped value occurs in `labels`; `getD 0` is the embedding's total
stand-in for that.) -/
def prepare_sankey_data (df : List Record) (src mid tgt : Record → String) :
    List String × List ℕ × List ℕ × List ℕ :=
  let labels := uniqueFirst (df.map src) ++ uniqueFirst (df.map mid) ++
    uniqueFirst (df.map tgt)
  let s2m := flowCounts df src mid
  let m2t := flowCounts df mid tgt
  let sources := (s2m.map fun e => (labelToIdx labels e.1).getD 0) ++
    (m2t.map fun e => (labelToIdx labels e.1).getD 0)
  let targets := (s2m.map fun e => (labelToIdx labels e.2.1).getD 0) ++
    (m2t.map fun e => (labelToIdx labels e.2.1).getD 0)
  let values := (s2m.map fun e => e.2.2) ++ (m2t.map fun e => e.2.2)
  (labels, sources, targets, values)

theorem flowCounts_witness_mem (df : List Record) (fc gc : Record → String) :
    ∀ e ∈ flowCounts df fc gc, ∃ r ∈ df, fc r = e.1 ∧ gc r = e.2.1 := by
  intro e he
  rcases List.mem_map.mp he with ⟨p, hp, rfl⟩
  have hp' : p ∈ uniqueFirst (df.map fun r => (fc r, gc r)) :=
    (List.perm_insertionSort _ _).mem_iff.mp hp
  have hp'' : p ∈ df.map fun r => (fc r, gc r) := (mem_uniqueFirst _ _).mp hp'
  rcases List.mem_map.mp hp'' with ⟨r, hr, he⟩
  exact ⟨r, hr, congrArg Prod.fst he, congrArg Prod.snd he⟩

theorem sum_counts_over_keys (df : List Record) (q : Record → String × String)
    (v : String) :
    ∀ keys : List (String × String), keys.Nodup →
      (∀ r ∈ df, (q r).1 = v → q r ∈ keys) → (∀ k ∈ keys, k.1 = v) →
      (keys.map fun k => df.countP fun r => decide (q r = k)).sum =
        df.countP fun r => decide ((q r).1 = v) := by
  induction df with
  | nil =>
    intro keys _ _ _
    simp
  | cons r df ih =>
    intro keys hnd hmem hkey
    have hstep : (keys.map fun k => (r :: df).countP fun s => decide (q s = k)) =
        keys.map fun k => (df.countP fun s => decide (q s = k)) +
          if q r = k then 1 else 0 := by
      apply List.map_congr_left
      intro k _
      simp [List.countP_cons]
    have hind : (keys.map fun k => if q r = k then (1 : ℕ) else 0).sum =
        if (q r).1 = v then 1 else 0 := by
      by_cases hv : (q r).1 = v
      · rw [if_pos hv]
        exact sum_map_indicator keys (q r) hnd
          (hmem r (List.mem_cons_self r df) hv)
      · rw [if_neg hv]
        apply List.sum_eq_zero
        intro y hy
        rcases List.mem_map.mp hy with ⟨k, hk, rfl⟩
        have : q r ≠ k := fun he => hv (he ▸ hkey k hk)
        simp [this]
    have h2 := ih keys hnd (fun r' hr' => hmem r' (List.mem_cons_of_mem r hr'))
      hkey
    rw [hstep, sum_map_add_nat, h2, hind, List.countP_cons]
    simp

theorem flowCounts_out_sum (df : List Record) (fc gc : Record → String)
    (v : String) :
    (((flowCounts df fc gc).filter fun e => decide (e.1 = v)).map
      fun e => e.2.2).sum = df.countP fun r => decide (fc r = v) := by
  have hperm : List.Perm (flowCounts df fc gc)
      ((uniqueFirst (df.map fun r => (fc r, gc r))).map fun p =>
        (p.1, p.2, df.countP fun r => decide (fc r = p.1) && decide (gc r = p.2))) :=
    List.Perm.map _ (List.perm_insertionSort _ _)
  have hsum : (((flowCounts df fc gc).filter fun e => decide (e.1 = v)).map
      fun e => e.2.2).sum =
      ((((uniqueFirst (df.map fun r => (fc r, gc r))).map fun p =>
        (p.1, p.2, df.countP fun r => decide (fc r = p.1) && decide (gc r = p.2))).filter
          (fun e => decide (e.1 = v))).map fun e => e.2.2).sum :=
    ((hperm.filter _).map _).sum_eq
  rw [hsum, List.filter_map, List.map_map]
  have hkeys : ((uniqueFirst (df.map fun r => (fc r, gc r))).filter
      fun p => decide (p.1 = v)).Nodup :=
    (nodup_uniqueFirst _).filter _
  have hmem : ∀ r ∈ df, ((fun s => (fc s, gc s)) r).1 = v →
      (fun s => (fc s, gc s)) r ∈ ((uniqueFirst (df.map fun s => (fc s, gc s))).filter
        fun p => decide (p.1 = v)) := by
    intro r hr hv
    refine List.mem_filter.mpr ⟨(mem_uniqueFirst _ _).mpr (List.mem_map_of_mem _ hr), ?_⟩
    simpa using hv
  have hkey : ∀ k ∈ ((uniqueFirst (df.map fun s => (fc s, gc s))).filter
      fun p => decide (p.1 = v)), k.1 = v := by
    intro k hk
    simpa using (List.mem_filter.mp hk).2
  have := sum_counts_over_keys df (fun s => (fc s, gc s)) v
    ((uniqueFirst (df.map fun s => (fc s, gc s))).filter fun p => decide (p.1 = v))
    hkeys hmem hkey
  rw [← this]
  congr 1
  apply List.map_congr_left
  intro k _
  apply List.countP_congr
  intro r _
  cases k with
  | mk k1 k2 =>
    simp [Prod.ext_iff]

/-- C8: the three-stage edge list of `prepare_sankey_data` is the
concatenation of the two pairwise flow tables computed independently;
each edge corresponds to exactly one observed (value-A, value-B)
combination, weighted by its record count, so every weight is a positive
integer; and for the source (resp. middle) column, the edge weights
leaving a value sum to the count of records carrying that value. -/
theorem prepare_sankey_flows (df : List Record) (src mid tgt : Record → String) :
    ((prepare_sankey_data df src mid tgt).2.2.2 =
        ((flowCounts df src mid).map fun e => e.2.2) ++
          ((flowCounts df mid tgt).map fun e => e.2.2)) ∧
    ((prepare_sankey_data df src mid tgt).2.1 =
        ((flowCounts df src mid).map fun e =>
            (labelToIdx (prepare_sankey_data df src mid tgt).1 e.1).getD 0) ++
          ((flowCounts df mid tgt).map fun e =>
            (labelToIdx (prepare_sankey_data df src mid tgt).1 e.1).getD 0)) ∧
    (∀ e ∈ flowCounts df src mid, 0 < e.2.2 ∧
      e.2.2 = df.countP fun r => decide (src r = e.1) && decide (mid r = e.2.1)) ∧
    (∀ e ∈ flowCounts df mid tgt, 0 < e.2.2 ∧
      e.2.2 = df.countP fun r => decide (mid r = e.1) && decide (tgt r = e.2.1)) ∧
    ((flowCounts df src mid).map fun e => (e.1, e.2.1)).Nodup ∧
    (∀ a b, ((a, b) ∈ (flowCounts df src mid).map fun e => (e.1, e.2.1)) ↔
      (a, b) ∈ df.map fun r => (src r, mid r)) ∧
    (∀ v, (((flowCounts df src mid).filter fun e => decide (e.1 = v)).map
      fun e => e.2.2).sum = df.countP fun r => decide (src r = v)) ∧
    (∀ v, (((flowCounts df mid tgt).filter fun e => decide (e.1 = v)).map
      fun e => e.2.2).sum = df.countP fun r => decide (mid r = v)) := by
  have hproj : ((flowCounts df src mid).map fun e => (e.1, e.2.1)) =
      List.insertionSort pairLe (uniqueFirst (df.map fun r => (src r, mid r))) := by
    rw [flowCounts, List.map_map]
    apply List.map_id''
    intro p
    rfl
  refine ⟨rfl, rfl, ?_, ?_, ?_, ?_, fun v => flowCounts_out_sum df src mid v,
    fun v => flowCounts_out_sum df mid tgt v⟩
  · intro e he
    rcases flowCounts_witness_mem df src mid e he with ⟨r, hr, h1, h2⟩
    rcases List.mem_map.mp he with ⟨p, _, rfl⟩
    refine ⟨List.countP_pos_iff.mpr ⟨r, hr, ?_⟩, rfl⟩
    simp [h1, h2]
  · intro e he
    rcases flowCounts_witness_mem df mid tgt e he with ⟨r, hr, h1, h2⟩
    rcases List.mem_map.mp he with ⟨p, _, rfl⟩
    refine ⟨List.countP_pos_iff.mpr ⟨r, hr, ?_⟩, rfl⟩
    simp [h1, h2]
  · rw [hproj]
    exact ((List.perm_insertionSort _ _).nodup_iff).mpr (nodup_uniqueFirst _)
  · intro a b
    rw [hproj, (List.perm_insertionSort _ _).mem_iff, mem_uniqueFirst]

theorem prepare_sankey_flows_witness :
    (0 < (("IDP", "Return", 1) : String × String × ℕ).2.2 ∧
      (("IDP", "Return", 1) : String × String × ℕ).2.2 =
        [rec1, rec2].countP fun r =>
          decide (r.displacement_status = (("IDP", "Return", 1) : String × String × ℕ).1) &&
            decide (r.solutions_pathway = (("IDP", "Return", 1) : String × String × ℕ).2.1)) ∧
    ((((flowCounts [rec1, rec2] Record.displacement_status
        Record.solutions_pathway).filter fun e => decide (e.1 = "IDP")).map
      fun e => e.2.2).sum =
      [rec1, rec2].countP fun r => decide (r.displacement_status = "IDP")) := by
  constructor
  · exact (prepare_sankey_flows [rec1, rec2] Record.displacement_status
      Record.solutions_pathway Record.pathway_stage).2.2.1 ("IDP", "Return", 1)
      (by
        simp +decide [flowCounts, uniqueFirst, uniqueAux, rec1, rec2,
          List.insertionSort, List.orderedInsert, pairLe, strLe])
  · exact (prepare_sankey_flows [rec1, rec2] Record.displacement_status
      Record.solutions_pathway Record.pathway_stage).2.2.2.2.2.2.1 "IDP"

theorem labelToIdx_isSome (l : List String) :
    ∀ x, x ∈ l → (labelToIdx l x).isSome := by
  induction l with
  | nil => intro x hx; cases hx
  | cons a l ih =>
    intro x hx
    simp only [labelToIdx]
    cases hm : labelToIdx l x with
    | some j => simp
    | none =>
      rcases List.mem_cons.mp hx with rfl | hx'
      · simp
      · have := ih x hx'
        rw [hm] at this
        cases this

theorem labelToIdx_last (l : List String) :
    ∀ x j, labelToIdx l x = some j →
      l[j]? = some x ∧ ∀ k, j < k → l[k]? ≠ some x := by
  induction l with
  | nil => intro x j h; cases h
  | cons a l ih =>
    intro x j h
    simp only [labelToIdx] at h
    cases hm : labelToIdx l x with
    | some j' =>
      rw [hm] at h
      cases h
      rcases ih x j' hm with ⟨h1, h2⟩
      refine ⟨by simpa using h1, ?_⟩
      intro k hk
      cases k with
      | zero => omega
      | succ k' =>
        have : j' < k' := by omega
        simpa using h2 k' this
    | none =>
      rw [hm] at h
      by_cases hxa : x = a
      · rw [if_pos hxa] at h
        cases h
        subst hxa
        refine ⟨by simp, ?_⟩
        intro k hk
        cases k with
        | zero => omega
        | succ k' =>
          intro hcon
          have hx : x ∈ l := by
            have : l[k']? = some x := by simpa using hcon
            exact List.getElem?_mem this
          have := labelToIdx_isSome l x hx
          rw [hm] at this
          cases this
      · rw [if_neg hxa] at h
        cases h

/-- "Index `i` points at a label whose name does not occur again later in
the list": the resolution rule the index dictionary actually implements. -/
def isLastOccurrence (labels : List String) (i : ℕ) : Prop :=
  i < labels.length ∧ ∀ j, i < j → labels[j]? ≠ labels[i]?

/-- The property the claim asserts of the source endpoints of the
source→middle edge segment: each one indexes a node of the source
column's own block (the first `|source values|` labels). -/
def sourcesInOwnBlock (df : List Record) (src mid tgt : Record → String) : Prop :=
  ∀ i ∈ (prepare_sankey_data df src mid tgt).2.1.take
      (flowCounts df src mid).length,
    i < (uniqueFirst (df.map src)).length

/-- A record whose displacement status and solutions pathway carry the
same category name, so the same label appears in two different columns. -/
def recX : Record :=
  ⟨"B7", "East", "D7", "X", "X", "S", 1, "Male", "Emergency", "None", "No",
    ⟨2024, 5, 1⟩⟩

/-- C9 counterexample: with the label `"X"` in both the source and middle
columns, the node list is `["X", "X", "S"]` but the single source→middle
edge's source endpoint is index 1 — the MIDDLE column's `"X"` node — not
the source column's node 0: the index dictionary deduplicates by name,
last occurrence winning. -/
theorem sankey_own_column_counterexample :
    ¬ sourcesInOwnBlock [recX] Record.displacement_status
      Record.solutions_pathway Record.pathway_stage := by
  intro hcon
  have h1 : (1 : ℕ) ∈ (prepare_sankey_data [recX] Record.displacement_status
      Record.solutions_pathway Record.pathway_stage).2.1.take
      (flowCounts [recX] Record.displacement_status
        Record.solutions_pathway).length := by
    simp +decide [prepare_sankey_data, flowCounts, labelToIdx, uniqueFirst,
      uniqueAux, recX, List.insertionSort, List.orderedInsert, pairLe, strLe]
  have h2 := hcon 1 h1
  have h3 : (uniqueFirst ([recX].map Record.displacement_status)).length = 1 := by
    simp +decide [uniqueFirst, uniqueAux, recX]
  omega

/-- C9 amended: the node list is the concatenation of each column's
distinct values in first-seen order, without deduplication across columns
(an identical name in two columns yields two entries); but every edge
endpoint is resolved by NAME through the index dictionary, whose later
bindings overwrite earlier ones, so each endpoint indexes the LAST
occurrence of its label — when a name appears in two columns, edges of
both columns attach to the later column's node, not each to its own
column's node. -/
theorem prepare_sankey_nodes (df : List Record) (src mid tgt : Record → String) :
    ((prepare_sankey_data df src mid tgt).1 =
      uniqueFirst (df.map src) ++ uniqueFirst (df.map mid) ++
        uniqueFirst (df.map tgt)) ∧
    (∀ i ∈ (prepare_sankey_data df src mid tgt).2.1,
      isLastOccurrence (prepare_sankey_data df src mid tgt).1 i) ∧
    (∀ i ∈ (prepare_sankey_data df src mid tgt).2.2.1,
      isLastOccurrence (prepare_sankey_data df src mid tgt).1 i) := by
  have hlast : ∀ x, x ∈ (prepare_sankey_data df src mid tgt).1 →
      isLastOccurrence (prepare_sankey_data df src mid tgt).1
        ((labelToIdx (prepare_sankey_data df src mid tgt).1 x).getD 0) := by
    intro x hx
    have hs := labelToIdx_isSome _ x hx
    rcases Option.isSome_iff_exists.mp hs with ⟨j, hj⟩
    rcases labelToIdx_last _ x j hj with ⟨h1, h2⟩
    have hlen : j < (prepare_sankey_data df src mid tgt).1.length :=
      (List.getElem?_eq_some.mp h1).1
    rw [hj]
    refine ⟨hlen, ?_⟩
    intro k hk
    rw [show ((some j).getD 0) = j from rfl] at hk ⊢
    rw [h1]
    exact h2 k hk
  have hsrcmem : ∀ e ∈ flowCounts df src mid,
      e.1 ∈ (prepare_sankey_data df src mid tgt).1 ∧
      e.2.1 ∈ (prepare_sankey_data df src mid tgt).1 := by
    intro e he
    rcases flowCounts_witness_mem df src mid e he with ⟨r, hr, h1, h2⟩
    constructor
    · refine List.mem_append_left _ (List.mem_append_left _ ?_)
      exact (mem_uniqueFirst _ _).mpr (h1 ▸ List.mem_map_of_mem src hr)
    · refine List.mem_append_left _ (List.mem_append_right _ ?_)
      exact (mem_uniqueFirst _ _).mpr (h2 ▸ List.mem_map_of_mem mid hr)
  have hmidmem : ∀ e ∈ flowCounts df mid tgt,
      e.1 ∈ (prepare_sankey_data df src mid tgt).1 ∧
      e.2.1 ∈ (prepare_sankey_data df src mid tgt).1 := by
    intro e he
    rcases flowCounts_witness_mem df mid tgt e he with ⟨r, hr, h1, h2⟩
    constructor
    · refine List.mem_append_left _ (List.mem_append_right _ ?_)
      exact (mem_uniqueFirst _ _).mpr (h1 ▸ List.mem_map_of_mem mid hr)
    · refine List.mem_append_right _ ?_
      exact (mem_uniqueFirst _ _).mpr (h2 ▸ List.mem_map_of_mem tgt hr)
  refine ⟨rfl, ?_, ?_⟩
  · intro i hi
    rcases List.mem_append.mp hi with hi1 | hi2
    · rcases List.mem_map.mp hi1 with ⟨e, he, rfl⟩
      exact hlast _ (hsrcmem e he).1
    · rcases List.mem_map.mp hi2 with ⟨e, he, rfl⟩
      exact hlast _ (hmidmem e he).1
  · intro i hi
    rcases List.mem_append.mp hi with hi1 | hi2
    · rcases List.mem_map.mp hi1 with ⟨e, he, rfl⟩
      exact hlast _ (hsrcmem e he).2
    · rcases List.mem_map.mp hi2 with ⟨e, he, rfl⟩
      exact hlast _ (hmidmem e he).2

theorem prepare_sankey_nodes_witness :
    isLastOccurrence (prepare_sankey_data [recX] Record.displacement_status
      Record.solutions_pathway Record.pathway_stage).1 1 :=
  (prepare_sankey_nodes [recX] Record.displacement_status
    Record.solutions_pathway Record.pathway_stage).2.1 1
    (by
      simp +decide [prepare_sankey_data, flowCounts, labelToIdx, uniqueFirst,
        uniqueAux, recX, List.insertionSort, List.orderedInsert, pairLe, strLe])

/-- A source table: the set of column names the CSV actually has, plus
its rows' cell contents. -/
structure SourceTable where
  cols : List String
  rows : List Record
deriving Repr

/-- The columns `load_and_process_data` dereferences, in the order its
statements read them (lines 27, 35, 38–41): `pd.read_csv` itself checks
nothing, so only reading a missing column raises — a `KeyError`, the
code's realization of the spec's `SchemaError`. -/
def loaderReadCols : List String :=
  ["registration_date", "household_size", "gender_hoh", "livelihood_support",
    "pathway_stage", "documentation_status"]

/-- The missing-column load failure (the spec's `SchemaError` taxon; the
code raises pandas `KeyError` naming the column). -/
structure SchemaError where
  missing : String
deriving DecidableEq, Repr

/-- A loaded row with the derived columns of lines 30–41 appended. -/
structure ProcessedRecord where
  base : Record
  registration_month : ℕ
  registration_year : ℕ
  registration_quarter : ℕ
  total_individuals : ℤ
  is_female_hoh : Bool
  has_livelihood_support : Bool
  is_achieved : Bool
  has_documentation : Bool
deriving DecidableEq, Repr

/-- The derived-column computation of `load_and_process_data`. -/
def processRecord (r : Record) : ProcessedRecord :=
  ⟨r, monthIdx r.registration_date, r.registration_date.y,
    r.registration_date.y * 4 + (r.registration_date.m - 1) / 3,
    r.household_size, r.is_female_hoh, r.has_livelihood_support,
    r.is_achieved, r.has_documentation⟩

/-- `load_and_process_data` (`src/utils/data_processing.py`, lines
12–43): the first dereferenced column missing from the table aborts the
load; otherwise every row is kept and the derived columns are added. -/
def load_and_process_data (tbl : SourceTable) :
    Except SchemaError (List ProcessedRecord) :=
  match loaderReadCols.find? fun c => !(tbl.cols.contains c) with
  | some c => .error ⟨c⟩
  | none => .ok (tbl.rows.map processRecord)

/-- The full required column set of the record schema (§3 of the spec),
used to state the claim; the loader itself touches only
`loaderReadCols`. -/
def schemaRequiredCols : List String :=
  ["beneficiary_id", "region", "district", "latitude", "longitude",
    "displacement_status", "solutions_pathway", "pathway_stage",
    "household_size", "gender_hoh", "shelter_status", "documentation_status",
    "livelihood_support", "registration_date"]

/-- C10 counterexample: a source table lacking the required schema column
`region` (but having the six columns the loader reads) loads
successfully — the loader does not fail for every missing required
column. -/
theorem load_missing_region_counterexample :
    ("region" ∈ schemaRequiredCols ∧
      "region" ∉ (⟨schemaRequiredCols.erase "region", []⟩ : SourceTable).cols) ∧
    (load_and_process_data
      ⟨schemaRequiredCols.erase "region", []⟩).isOk = true := by
  constructor
  · constructor
    · decide
    · decide
  · decide

/-- C10 amended: the load fails (with the missing-column error, producing
no record set) exactly when one of the six columns the loader
dereferences — registration_date, household_size, gender_hoh,
livelihood_support, pathway_stage, documentation_status — is absent from
the source; a table lacking only other schema columns (e.g. `region`,
`beneficiary_id`) is not detected and loads successfully. -/
theorem load_and_process_data_spec (tbl : SourceTable) :
    ((load_and_process_data tbl).isOk = false ↔
      ∃ c ∈ loaderReadCols, c ∉ tbl.cols) ∧
    (∀ e, load_and_process_data tbl = .error e →
      e.missing ∈ loaderReadCols ∧ e.missing ∉ tbl.cols) ∧
    ((∀ c ∈ loaderReadCols, c ∈ tbl.cols) →
      load_and_process_data tbl = .ok (tbl.rows.map processRecord)) := by
  refine ⟨?_, ?_, ?_⟩
  · unfold load_and_process_data
    cases hf : loaderReadCols.find? fun c => !(tbl.cols.contains c) with
    | some c =>
      simp only [Except.isOk, Except.toBool]
      constructor
      · intro _
        refine ⟨c, List.mem_of_find?_eq_some hf, ?_⟩
        have := List.find?_some hf
        simpa using this
      · intro _
        trivial
    | none =>
      simp only [Except.isOk, Except.toBool]
      constructor
      · intro h
        cases h
      · rintro ⟨c, hc, hnc⟩
        have := List.find?_eq_none.mp hf c hc
        simp at this
        exact absurd this hnc
  · intro e he
    unfold load_and_process_data at he
    cases hf : loaderReadCols.find? fun c => !(tbl.cols.contains c) with
    | some c =>
      rw [hf] at he
      cases he
      refine ⟨List.mem_of_find?_eq_some hf, ?_⟩
      have := List.find?_some hf
      simpa using this
    | none =>
      rw [hf] at he
      cases he
  · intro hall
    unfold load_and_process_data
    cases hf : loaderReadCols.find? fun c => !(tbl.cols.contains c) with
    | some c =>
      have hc := List.mem_of_find?_eq_some hf
      have := List.find?_some hf
      simp only [Bool.not_eq_true'] at this
      have : c ∉ tbl.cols := by simpa using this
      exact absurd (hall c hc) this
    | none => rfl

theorem load_and_process_data_spec_witness :
    load_and_process_data ⟨schemaRequiredCols, [rec1]⟩ =
      .ok ([rec1].map processRecord) :=
  (load_and_process_data_spec ⟨schemaRequiredCols, [rec1]⟩).2.2 (by decide)

end Dashboard
